import Mathlib

set_option maxHeartbeats 1000000

/- Shallow embedding of the IB Gateway connection pool of
   src/ib_service/connection_manager.py (classes IBConnection and
   IBConnectionPool) and of the client-id retry loop of
   src/ib_service/main.py (get_ib_connection, lines 292-435).

   Timestamps are modelled as natural numbers (seconds).  Network effects
   (the ib_insync client) are modelled by outcome parameters: each call that
   in the source performs I/O takes the observed outcome as an argument. -/

namespace TradingApp

/-- State of one IBConnection object (connection_manager.py, lines 28-39).
    The external ib_insync client handle is not part of the state; its
    observable behaviour enters through outcome parameters. -/
structure IBConnection where
  client_id : Nat
  connected : Bool
  last_heartbeat : Option Nat
  connection_time : Option Nat
  last_error : Option Nat
  in_use : Bool
  deriving DecidableEq, Repr

/-- IBConnection.is_healthy (lines 151-161): not connected gives false; with a
    heartbeat, healthy iff its age is under heartbeat_timeout * 2; with no
    heartbeat recorded the final `return False` is reached. -/
def is_healthy (T now : Nat) (c : IBConnection) : Bool :=
  if c.connected = false then false
  else
    match c.last_heartbeat with
    | some t => decide (now - t < T * 2)
    | none => false

/-- Observable outcome of one IBConnection.connect call (lines 41-90):
    the underlying client was already connected, the connect succeeded,
    it timed out, or it raised some other exception. -/
inductive ConnectOutcome where
  | alreadyConnected
  | success
  | timeout
  | failure
  deriving DecidableEq, Repr

/-- IBConnection.connect (lines 41-90).  Success records connection_time and
    last_heartbeat and clears last_error; timeout and failure record
    last_error and set connected to false, returning False instead of
    raising.  Error messages are abstracted to numeric codes. -/
def connect (c : IBConnection) (now : Nat) (o : ConnectOutcome) :
    IBConnection × Bool :=
  match o with
  | ConnectOutcome.alreadyConnected => (c, true)
  | ConnectOutcome.success =>
      ({ c with connected := true, connection_time := some now,
                last_heartbeat := some now, last_error := none }, true)
  | ConnectOutcome.timeout =>
      ({ c with last_error := some 1, connected := false }, false)
  | ConnectOutcome.failure =>
      ({ c with last_error := some 2, connected := false }, false)

/-- IBConnection.heartbeat (lines 123-149): returns false when not connected;
    otherwise a successful probe refreshes last_heartbeat, a failed probe
    (isConnected false, or an exception) sets connected to false. -/
def heartbeat (c : IBConnection) (now : Nat) (probe_ok : Bool) :
    IBConnection × Bool :=
  if c.connected = false then (c, false)
  else if probe_ok then ({ c with last_heartbeat := some now }, true)
  else ({ c with connected := false }, false)

/-- The state-reset performed by IBConnection.disconnect on its non-raising
    path (lines 111-114). -/
def clearConnection (c : IBConnection) : IBConnection :=
  { c with connected := false, in_use := false,
           connection_time := none, last_heartbeat := none }

/-- The try-block of IBConnection.disconnect (lines 104-116): when a live
    client exists its teardown may raise, in which case the reset statements
    are never reached; otherwise the state is reset. -/
def disconnectBody (c : IBConnection) (client_live teardown_raises : Bool) :
    Except Unit IBConnection :=
  if client_live then
    if teardown_raises then Except.error ()
    else Except.ok (clearConnection c)
  else Except.ok (clearConnection c)

/-- IBConnection.disconnect (lines 101-121): the surrounding
    except-Exception handler logs and swallows any teardown error, leaving
    the state as it was at the raise point; the method itself never raises. -/
def disconnect (c : IBConnection) (client_live teardown_raises : Bool) :
    IBConnection :=
  match disconnectBody c client_live teardown_raises with
  | Except.ok c2 => c2
  | Except.error _ => c

/-- The tenacity-driven retry loop of IBConnectionPool._ensure_connected
    (lines 251-266): attempt index i, remaining further attempts, current
    connection state.  Returns the final state, the success flag, and the
    number of calls made to IBConnection.connect.  tenacity makes one
    attempt, then retries while the attempt count is below
    stop_after_attempt's bound. -/
def connectRetryGo (now : Nat) (outcomes : Nat → ConnectOutcome) :
    Nat → Nat → IBConnection → IBConnection × Bool × Nat
  | i, remaining, c =>
    let r := connect c now (outcomes i)
    if r.2 then (r.1, true, 1)
    else
      match remaining with
      | 0 => (r.1, false, 1)
      | Nat.succ m =>
          let r2 := connectRetryGo now outcomes (i + 1) m r.1
          (r2.1, r2.2.1, r2.2.2 + 1)

/-- _connect_with_retry under stop_after_attempt k: the first attempt is
    always made, then at most k - 1 further attempts. -/
def connectRetry (now : Nat) (outcomes : Nat → ConnectOutcome) (k : Nat)
    (c : IBConnection) : IBConnection × Bool × Nat :=
  connectRetryGo now outcomes 0 (k - 1) c

/-- IBConnectionPool._ensure_connected (lines 246-271): a healthy connection
    is returned as-is; otherwise the retry loop runs and a final failure is
    converted to a False return value instead of an exception. -/
def ensure_connected (T now k : Nat) (outcomes : Nat → ConnectOutcome)
    (c : IBConnection) : IBConnection × Bool :=
  if is_healthy T now c then (c, true)
  else
    let r := connectRetry now outcomes k c
    (r.1, r.2.1)

/-- State of an IBConnectionPool (lines 164-173): the connections dict is a
    total map keyed by client id (ids outside 1..max_connections hold unused
    default entries), available_connections is the FIFO queue of ids with
    head = front, heartbeat_task records that the monitor task was started. -/
structure IBConnectionPool where
  max_connections : Nat
  connections : Nat → IBConnection
  available_connections : List Nat
  heartbeat_task : Bool
  initialized : Bool

/-- A freshly constructed IBConnection (lines 31-39). -/
def freshConnection (i : Nat) : IBConnection :=
  { client_id := i, connected := false, last_heartbeat := none,
    connection_time := none, last_error := none, in_use := false }

/-- A freshly constructed IBConnectionPool (lines 167-173): empty queue,
    no monitor task, not initialized. -/
def initPool (n : Nat) : IBConnectionPool :=
  { max_connections := n, connections := fun i => freshConnection i,
    available_connections := [], heartbeat_task := false,
    initialized := false }

/-- IBConnectionPool.initialize (lines 175-194): a no-op when already
    initialized; otherwise creates a connection for every client id
    1..max_connections, puts each into the available queue in order, starts
    the heartbeat monitor task and sets the initialized flag. -/
def initializePool (p : IBConnectionPool) : IBConnectionPool :=
  if p.initialized then p
  else
    { p with
      connections := fun i =>
        if 1 ≤ i ∧ i ≤ p.max_connections then freshConnection i
        else p.connections i,
      available_connections :=
        p.available_connections ++ List.range' 1 p.max_connections,
      heartbeat_task := true,
      initialized := true }

/-- Pointwise update of the connections map. -/
def updateConn (f : Nat → IBConnection) (id : Nat) (c : IBConnection) :
    Nat → IBConnection :=
  fun j => if j = id then c else f j

/-- Pool state after get_connection leases the dequeued connection id:
    id is removed from the queue and marked in_use (line 235), where c is
    the connection state produced by _ensure_connected. -/
def acquireOkPool (q : IBConnectionPool) (id : Nat) (rest : List Nat)
    (c : IBConnection) : IBConnectionPool :=
  { q with available_connections := rest,
           connections := updateConn q.connections id { c with in_use := true } }

/-- Pool state after get_connection fails to reconnect the dequeued
    connection id: the finally clause (lines 241-244) clears in_use and puts
    id at the back of the queue. -/
def acquireFailPool (q : IBConnectionPool) (id : Nat) (rest : List Nat)
    (c : IBConnection) : IBConnectionPool :=
  { q with available_connections := rest ++ [id],
           connections := updateConn q.connections id { c with in_use := false } }

/-- Result of one pass through IBConnectionPool.get_connection up to the
    yield: a leased client id, the connect-failed error raised at line 233,
    or the queue-wait timeout error raised at line 239.  Both errors are
    ConnectionPoolError values in the source but carry distinct messages. -/
inductive AcquireResult where
  | ok (id : Nat)
  | connectFailed (id : Nat)
  | timedOut
  deriving DecidableEq, Repr

/-- Lines 218-219 of get_connection: an uninitialized pool is fully
    initialized before the queue is consulted. -/
def get_connection_init_phase (p : IBConnectionPool) : IBConnectionPool :=
  if p.initialized then p else initializePool p

/-- IBConnectionPool.get_connection (lines 215-244), acquisition phase as one
    atomic step.  An empty queue models the 30 s wait_for timeout (the
    finally clause then has connection = None and restores nothing).  On
    dequeue, an unhealthy connection is repaired via _ensure_connected; on
    repair failure the ConnectionPoolError propagates and the finally clause
    clears in_use and puts the connection at the back of the queue; on
    success in_use is set and the connection is handed to the caller. -/
def get_connection (T now k : Nat) (outcomes : Nat → ConnectOutcome)
    (p : IBConnectionPool) : AcquireResult × IBConnectionPool :=
  let q := get_connection_init_phase p
  match q.available_connections with
  | [] => (AcquireResult.timedOut, q)
  | id :: rest =>
    let r := ensure_connected T now k outcomes (q.connections id)
    if r.2 then (AcquireResult.ok id, acquireOkPool q id rest r.1)
    else (AcquireResult.connectFailed id, acquireFailPool q id rest r.1)

/-- The finally clause of get_connection after the caller's use of a leased
    connection (lines 241-244): clear in_use, put at the back of the queue. -/
def release_connection (p : IBConnectionPool) (id : Nat) : IBConnectionPool :=
  { p with
    available_connections := p.available_connections ++ [id],
    connections := updateConn p.connections id
      { p.connections id with in_use := false } }

/-- The per-connection guard of one _heartbeat_monitor tick (line 283): a
    connection is probed iff it is in the connections dict (ids
    1..max_connections), connected, and not in use. -/
def probedBy (p : IBConnectionPool) (id : Nat) : Bool :=
  decide (1 ≤ id) && decide (id ≤ p.max_connections) &&
    (p.connections id).connected && !(p.connections id).in_use

/-- One tick of IBConnectionPool._heartbeat_monitor (lines 277-290): every
    connection passing the guard receives a heartbeat call; the iteration is
    per-connection independent, so it is modelled pointwise. -/
def heartbeat_monitor_tick (now : Nat) (probe_ok : Nat → Bool)
    (p : IBConnectionPool) : IBConnectionPool :=
  { p with
    connections := fun id =>
      if probedBy p id then (heartbeat (p.connections id) now (probe_ok id)).1
      else p.connections id }

/-- The set of client ids probed by a monitor tick on pool state p. -/
def probedIds (p : IBConnectionPool) : Finset Nat :=
  (Finset.Icc 1 p.max_connections).filter fun id => probedBy p id = true

/-- Number of currently leased (in_use) connections. -/
def leased_count (p : IBConnectionPool) : Nat :=
  ((Finset.Icc 1 p.max_connections).filter
    fun id => (p.connections id).in_use = true).card

/-- Labels for the pool's externally observable atomic operations. -/
inductive PoolLabel where
  | acquired (id : Nat)
  | acquire_failed (id : Nat)
  | acquire_timed_out
  | released (id : Nat)
  | ticked
  deriving DecidableEq, Repr

/-- Atomic step relation of the pool: the acquisition phase of
    get_connection (with its three outcomes), the release performed by its
    finally clause, and one heartbeat-monitor tick.  T is the configured
    heartbeat_timeout, k the configured connection_retry_attempts. -/
inductive PoolStep (T k : Nat) :
    IBConnectionPool → PoolLabel → IBConnectionPool → Prop where
  | acquireOk (p : IBConnectionPool) (now : Nat)
      (outcomes : Nat → ConnectOutcome) (id : Nat)
      (h : (get_connection T now k outcomes p).1 = AcquireResult.ok id) :
      PoolStep T k p (PoolLabel.acquired id)
        (get_connection T now k outcomes p).2
  | acquireFail (p : IBConnectionPool) (now : Nat)
      (outcomes : Nat → ConnectOutcome) (id : Nat)
      (h : (get_connection T now k outcomes p).1 =
        AcquireResult.connectFailed id) :
      PoolStep T k p (PoolLabel.acquire_failed id)
        (get_connection T now k outcomes p).2
  | acquireTimeout (p : IBConnectionPool) (now : Nat)
      (outcomes : Nat → ConnectOutcome)
      (h : (get_connection T now k outcomes p).1 = AcquireResult.timedOut) :
      PoolStep T k p PoolLabel.acquire_timed_out
        (get_connection T now k outcomes p).2
  | release (p : IBConnectionPool) (id : Nat)
      (h : (p.connections id).in_use = true) :
      PoolStep T k p (PoolLabel.released id) (release_connection p id)
  | tick (p : IBConnectionPool) (now : Nat) (probe_ok : Nat → Bool)
      (h : p.heartbeat_task = true) :
      PoolStep T k p PoolLabel.ticked (heartbeat_monitor_tick now probe_ok p)

/-- States reachable from a freshly constructed pool of capacity n by
    acquire, release and monitor-tick operations. -/
inductive PoolReachable (T k n : Nat) : IBConnectionPool → Prop where
  | init : PoolReachable T k n (initPool n)
  | step {p : IBConnectionPool} {l : PoolLabel} {p' : IBConnectionPool} :
      PoolReachable T k n p → PoolStep T k p l p' → PoolReachable T k n p'

/-- The pool's structural invariant: the queue holds no duplicates, queue
    members are in-range and not in use, in-use ids are in range, after
    initialization every in-range id not in use is in the queue, and before
    initialization the queue is empty and nothing is in use. -/
def PoolInv (p : IBConnectionPool) : Prop :=
  p.available_connections.Nodup ∧
  (∀ id ∈ p.available_connections,
    (1 ≤ id ∧ id ≤ p.max_connections) ∧ (p.connections id).in_use = false) ∧
  (∀ id, (p.connections id).in_use = true →
    1 ≤ id ∧ id ≤ p.max_connections) ∧
  (p.initialized = true → ∀ id, 1 ≤ id → id ≤ p.max_connections →
    (p.connections id).in_use = false → id ∈ p.available_connections) ∧
  (p.initialized = false →
    p.available_connections = [] ∧ ∀ id, (p.connections id).in_use = false)

/- Embedding of the client-id retry loop of get_ib_connection
   (src/ib_service/main.py, lines 292-435). -/

/-- Classification of one connection attempt in the loop body, matching the
    except clause of lines 356-387: success (connection verified), a
    client-id-already-in-use / error-326 message, a peer-closed or
    connection-established-but message, or any other error (connection
    refused, timeout, unreachable, unknown — all reach the final else). -/
inductive ConnOutcome where
  | success
  | idInUse
  | peerClosed
  | otherErr
  deriving DecidableEq, Repr

/-- The non-base candidate offsets of line 313: base+1 .. base+5. -/
def candidateOffsets : List Nat := [1, 2, 3, 4, 5]

/-- The non-base candidates, in unshuffled order. -/
def candidatePool (base : Nat) : List Nat :=
  candidateOffsets.map fun d => base + d

/-- Lines 313-314: the candidate list is the base id followed by a shuffle
    of base+1 .. base+5; the shuffled tail is passed in explicitly since
    random.shuffle is nondeterministic.  The function takes no record of
    previously rejected ids: the source keeps none. -/
def candidateIds (base : Nat) (shuffled : List Nat) : List Nat :=
  base :: shuffled

/-- The for-loop of lines 317-387 over candidate ids.  Returns the id that
    connected (if any) and the trace of attempts as (id, delay slept after
    that attempt in seconds): success returns immediately; an id-in-use
    failure continues with the next id and no sleep; a peer-closed failure
    sleeps 2 seconds then continues; any other failure breaks out of the
    loop at once. -/
def connectLoop (classify : Nat → ConnOutcome) :
    List Nat → Option Nat × List (Nat × Nat)
  | [] => (none, [])
  | id :: rest =>
    match classify id with
    | ConnOutcome.success => (some id, [(id, 0)])
    | ConnOutcome.idInUse =>
        let r := connectLoop classify rest
        (r.1, (id, 0) :: r.2)
    | ConnOutcome.peerClosed =>
        let r := connectLoop classify rest
        (r.1, (id, 2) :: r.2)
    | ConnOutcome.otherErr => (none, [(id, 0)])

/-- The ids attempted by one run of the loop, in order. -/
def loopAttempts (classify : Nat → ConnOutcome) (ids : List Nat) : List Nat :=
  ((connectLoop classify ids).2).map Prod.fst

/-- Total backoff delay slept by one run of the loop, in seconds. -/
def loopDelay (classify : Nat → ConnOutcome) (ids : List Nat) : Nat :=
  (((connectLoop classify ids).2).map Prod.snd).sum

/- Concrete fixtures used by witness and counterexample theorems. -/

/-- Outcome sequence: every connect attempt succeeds. -/
def w_outcomes_ok : Nat → ConnectOutcome := fun _ => ConnectOutcome.success

/-- Outcome sequence: every connect attempt fails with a non-timeout error. -/
def w_outcomes_fail : Nat → ConnectOutcome := fun _ => ConnectOutcome.failure

/-- A capacity-2 pool after one successful acquire of client id 1. -/
def w_pool1 : IBConnectionPool :=
  (get_connection 1 0 1 w_outcomes_ok (initPool 2)).2

/-- A freshly initialized capacity-2 pool. -/
def w_pool_seeded : IBConnectionPool := initializePool (initPool 2)

/-- Classification: every attempt fails with a connection-refused style
    error (reaching the final else branch of lines 379-387). -/
def cls_refused : Nat → ConnOutcome := fun _ => ConnOutcome.otherErr

/-- Classification: id 1 is reported already in use, every other id
    connects. -/
def cls_base_in_use : Nat → ConnOutcome := fun i =>
  if i = 1 then ConnOutcome.idInUse else ConnOutcome.success

/-- A connected session with no heartbeat timestamp recorded. -/
def conn_no_heartbeat : IBConnection :=
  { client_id := 1, connected := true, last_heartbeat := none,
    connection_time := some 0, last_error := none, in_use := false }

/-- A connected session with timestamps recorded. -/
def conn_live : IBConnection :=
  { client_id := 1, connected := true, last_heartbeat := some 5,
    connection_time := some 3, last_error := none, in_use := false }

/-- A heartbeat call never touches the in_use flag. -/
theorem heartbeat_in_use (c : IBConnection) (now : Nat) (b : Bool) :
    ((heartbeat c now b).1).in_use = c.in_use := by
  unfold heartbeat
  by_cases h : c.connected = false
  · simp [h]
  · by_cases hb : b <;> simp [h, hb]

/-- A monitor tick never touches any in_use flag. -/
theorem tick_in_use (now : Nat) (f : Nat → Bool) (p : IBConnectionPool)
    (j : Nat) :
    ((heartbeat_monitor_tick now f p).connections j).in_use =
      (p.connections j).in_use := by
  unfold heartbeat_monitor_tick
  by_cases h : probedBy p j
  · simp [h, heartbeat_in_use]
  · simp [h]

/-- A freshly constructed pool satisfies the invariant. -/
theorem initPool_inv (n : Nat) : PoolInv (initPool n) := by
  refine ⟨?_, ?_, ?_, ?_, ?_⟩ <;>
    simp [initPool, freshConnection]


/-- Field facts about initializePool on an uninitialized pool. -/
theorem initializePool_fields (p : IBConnectionPool)
    (h : p.initialized = false) :
    (initializePool p).max_connections = p.max_connections ∧
    (initializePool p).available_connections =
      p.available_connections ++ List.range' 1 p.max_connections ∧
    (initializePool p).initialized = true ∧
    (initializePool p).heartbeat_task = true ∧
    ∀ i, (initializePool p).connections i =
      if 1 ≤ i ∧ i ≤ p.max_connections then freshConnection i
      else p.connections i := by
  rw [initializePool, if_neg (by simp [h])]
  exact ⟨rfl, rfl, rfl, rfl, fun i => rfl⟩

/-- The initialization phase always yields an initialized pool. -/
theorem init_phase_initialized (p : IBConnectionPool) :
    (get_connection_init_phase p).initialized = true := by
  rw [get_connection_init_phase]
  by_cases hi : p.initialized
  · rw [if_pos hi]; exact hi
  · rw [if_neg hi]
    exact (initializePool_fields p (by simpa using hi)).2.2.1

/-- The initialization phase never changes the configured capacity. -/
theorem init_phase_max (p : IBConnectionPool) :
    (get_connection_init_phase p).max_connections = p.max_connections := by
  rw [get_connection_init_phase]
  by_cases hi : p.initialized
  · rw [if_pos hi]
  · rw [if_neg hi]
    exact (initializePool_fields p (by simpa using hi)).1

/-- The initialization phase of get_connection preserves the invariant. -/
theorem init_phase_inv (p : IBConnectionPool) (hp : PoolInv p) :
    PoolInv (get_connection_init_phase p) := by
  obtain ⟨h1, h2, h3, h4, h5⟩ := hp
  rw [get_connection_init_phase]
  by_cases hi : p.initialized
  · rw [if_pos hi]
    exact ⟨h1, h2, h3, h4, h5⟩
  · rw [if_neg hi]
    have hi' : p.initialized = false := by simpa using hi
    obtain ⟨hav, hiu⟩ := h5 hi'
    obtain ⟨hm, hq, hin, hhb, hconn⟩ := initializePool_fields p hi'
    refine ⟨?_, ?_, ?_, ?_, ?_⟩
    · rw [hq, hav, List.nil_append]
      exact List.nodup_range' 1 p.max_connections
    · intro id hid
      rw [hq, hav, List.nil_append, List.mem_range'_1] at hid
      have hrange : 1 ≤ id ∧ id ≤ p.max_connections := ⟨hid.1, by omega⟩
      rw [hm, hconn id, if_pos hrange]
      exact ⟨hrange, rfl⟩
    · intro id hid
      rw [hconn id] at hid
      by_cases hrange : 1 ≤ id ∧ id ≤ p.max_connections
      · rw [hm]; exact hrange
      · rw [if_neg hrange] at hid
        exact absurd hid (by simp [hiu id])
    · intro _ id hid1 hid2 _
      rw [hm] at hid2
      rw [hq, hav, List.nil_append, List.mem_range'_1]
      exact ⟨hid1, by omega⟩
    · intro hcontra
      rw [hin] at hcontra
      cases hcontra

/-- Unfolding lemma for get_connection when the queue is empty. -/
theorem get_connection_nil (T now k : Nat) (outcomes : Nat → ConnectOutcome)
    (p : IBConnectionPool)
    (h : (get_connection_init_phase p).available_connections = []) :
    get_connection T now k outcomes p =
      (AcquireResult.timedOut, get_connection_init_phase p) := by
  rw [get_connection, h]

/-- Unfolding lemma for get_connection when the dequeued connection is (or
    becomes) usable. -/
theorem get_connection_cons_ok (T now k : Nat)
    (outcomes : Nat → ConnectOutcome) (p : IBConnectionPool) (id : Nat)
    (rest : List Nat)
    (hav : (get_connection_init_phase p).available_connections = id :: rest)
    (hok : (ensure_connected T now k outcomes
      ((get_connection_init_phase p).connections id)).2 = true) :
    get_connection T now k outcomes p =
      (AcquireResult.ok id, acquireOkPool (get_connection_init_phase p) id
        rest (ensure_connected T now k outcomes
          ((get_connection_init_phase p).connections id)).1) := by
  rw [get_connection, hav]
  simp only [hok, if_true]

/-- Unfolding lemma for get_connection when reconnection of the dequeued
    connection fails. -/
theorem get_connection_cons_fail (T now k : Nat)
    (outcomes : Nat → ConnectOutcome) (p : IBConnectionPool) (id : Nat)
    (rest : List Nat)
    (hav : (get_connection_init_phase p).available_connections = id :: rest)
    (hfail : (ensure_connected T now k outcomes
      ((get_connection_init_phase p).connections id)).2 = false) :
    get_connection T now k outcomes p =
      (AcquireResult.connectFailed id,
        acquireFailPool (get_connection_init_phase p) id rest
          (ensure_connected T now k outcomes
            ((get_connection_init_phase p).connections id)).1) := by
  rw [get_connection, hav]
  simp only [hfail, Bool.false_eq_true, if_false]

/-- Field facts about acquireOkPool. -/
theorem acquireOkPool_fields (q : IBConnectionPool) (id : Nat)
    (rest : List Nat) (c : IBConnection) :
    (acquireOkPool q id rest c).available_connections = rest ∧
    (acquireOkPool q id rest c).max_connections = q.max_connections ∧
    (acquireOkPool q id rest c).initialized = q.initialized ∧
    ∀ j, (acquireOkPool q id rest c).connections j =
      if j = id then { c with in_use := true } else q.connections j :=
  ⟨rfl, rfl, rfl, fun _ => rfl⟩

/-- Field facts about acquireFailPool. -/
theorem acquireFailPool_fields (q : IBConnectionPool) (id : Nat)
    (rest : List Nat) (c : IBConnection) :
    (acquireFailPool q id rest c).available_connections = rest ++ [id] ∧
    (acquireFailPool q id rest c).max_connections = q.max_connections ∧
    (acquireFailPool q id rest c).initialized = q.initialized ∧
    ∀ j, (acquireFailPool q id rest c).connections j =
      if j = id then { c with in_use := false } else q.connections j :=
  ⟨rfl, rfl, rfl, fun _ => rfl⟩

/-- Field facts about release_connection. -/
theorem release_connection_fields (p : IBConnectionPool) (id : Nat) :
    (release_connection p id).available_connections =
      p.available_connections ++ [id] ∧
    (release_connection p id).max_connections = p.max_connections ∧
    (release_connection p id).initialized = p.initialized ∧
    ∀ j, (release_connection p id).connections j =
      if j = id then { p.connections id with in_use := false }
      else p.connections j :=
  ⟨rfl, rfl, rfl, fun _ => rfl⟩

/-- Invariant preservation for an acquire that leases the dequeued
    connection. -/
theorem acquire_ok_inv (q : IBConnectionPool) (id : Nat) (rest : List Nat)
    (c : IBConnection) (hq : PoolInv q) (hqi : q.initialized = true)
    (hav : q.available_connections = id :: rest) :
    PoolInv (acquireOkPool q id rest c) := by
  obtain ⟨h1, h2, h3, h4, h5⟩ := hq
  obtain ⟨f1, f2, f3, f4⟩ := acquireOkPool_fields q id rest c
  have hnodup : (id :: rest).Nodup := hav ▸ h1
  have hid_mem : id ∈ q.available_connections := by
    rw [hav]; exact List.mem_cons_self id rest
  have hid_props := h2 id hid_mem
  have hid_notin_rest : id ∉ rest := (List.nodup_cons.mp hnodup).1
  refine ⟨?_, ?_, ?_, ?_, ?_⟩
  · rw [f1]; exact (List.nodup_cons.mp hnodup).2
  · intro j hj
    rw [f1] at hj
    have hj_mem : j ∈ q.available_connections := by
      rw [hav]; exact List.mem_cons_of_mem id hj
    have hjne : j ≠ id := fun he => hid_notin_rest (he ▸ hj)
    rw [f2, f4 j, if_neg hjne]
    exact h2 j hj_mem
  · intro j hj
    rw [f4 j] at hj
    rw [f2]
    by_cases hje : j = id
    · exact hje ▸ hid_props.1
    · rw [if_neg hje] at hj
      exact h3 j hj
  · intro _ j hj1 hj2 hj3
    rw [f2] at hj2
    rw [f4 j] at hj3
    rw [f1]
    by_cases hje : j = id
    · rw [if_pos hje] at hj3
      cases hj3
    · rw [if_neg hje] at hj3
      have := h4 hqi j hj1 hj2 hj3
      rw [hav] at this
      rcases List.mem_cons.mp this with he | hm
      · exact absurd he hje
      · exact hm
  · intro hc
    rw [f3, hqi] at hc
    cases hc

/-- Invariant preservation for an acquire whose reconnection fails: the
    connection goes to the back of the queue, not in use. -/
theorem acquire_fail_inv (q : IBConnectionPool) (id : Nat) (rest : List Nat)
    (c : IBConnection) (hq : PoolInv q) (hqi : q.initialized = true)
    (hav : q.available_connections = id :: rest) :
    PoolInv (acquireFailPool q id rest c) := by
  obtain ⟨h1, h2, h3, h4, h5⟩ := hq
  obtain ⟨f1, f2, f3, f4⟩ := acquireFailPool_fields q id rest c
  have hnodup : (id :: rest).Nodup := hav ▸ h1
  have hid_mem : id ∈ q.available_connections := by
    rw [hav]; exact List.mem_cons_self id rest
  have hid_props := h2 id hid_mem
  have hperm : (rest ++ [id]).Perm (id :: rest) :=
    List.perm_append_singleton id rest
  refine ⟨?_, ?_, ?_, ?_, ?_⟩
  · rw [f1]; exact hperm.nodup_iff.mpr hnodup
  · intro j hj
    rw [f1] at hj
    have hj' : j ∈ id :: rest := hperm.mem_iff.mp hj
    have hj_mem : j ∈ q.available_connections := by rw [hav]; exact hj'
    rw [f2, f4 j]
    by_cases hje : j = id
    · rw [if_pos hje]
      exact ⟨(h2 j hj_mem).1, rfl⟩
    · rw [if_neg hje]
      exact h2 j hj_mem
  · intro j hj
    rw [f4 j] at hj
    rw [f2]
    by_cases hje : j = id
    · rw [if_pos hje] at hj
      cases hj
    · rw [if_neg hje] at hj
      exact h3 j hj
  · intro _ j hj1 hj2 hj3
    rw [f2] at hj2
    rw [f4 j] at hj3
    rw [f1]
    by_cases hje : j = id
    · exact hperm.mem_iff.mpr (hje ▸ List.mem_cons_self id rest)
    · rw [if_neg hje] at hj3
      have := h4 hqi j hj1 hj2 hj3
      rw [hav] at this
      exact hperm.mem_iff.mpr this
  · intro hc
    rw [f3, hqi] at hc
    cases hc

/-- The pool state after any outcome of get_connection satisfies the
    invariant. -/
theorem get_connection_inv (T now k : Nat) (outcomes : Nat → ConnectOutcome)
    (p : IBConnectionPool) (hp : PoolInv p) :
    PoolInv (get_connection T now k outcomes p).2 := by
  have hq := init_phase_inv p hp
  have hqi := init_phase_initialized p
  cases hav : (get_connection_init_phase p).available_connections with
  | nil =>
    rw [get_connection_nil T now k outcomes p hav]
    exact hq
  | cons id rest =>
    by_cases hok : (ensure_connected T now k outcomes
        ((get_connection_init_phase p).connections id)).2 = true
    · rw [get_connection_cons_ok T now k outcomes p id rest hav hok]
      exact acquire_ok_inv _ id rest _ hq hqi hav
    · rw [get_connection_cons_fail T now k outcomes p id rest hav
        (by simpa using hok)]
      exact acquire_fail_inv _ id rest _ hq hqi hav

/-- Invariant preservation for release_connection of a leased connection. -/
theorem release_inv (p : IBConnectionPool) (id : Nat) (hp : PoolInv p)
    (hid : (p.connections id).in_use = true) :
    PoolInv (release_connection p id) := by
  obtain ⟨h1, h2, h3, h4, h5⟩ := hp
  have hinit : p.initialized = true := by
    cases hini : p.initialized
    · exact absurd ((h5 hini).2 id) (by simp [hid])
    · rfl
  have hid_notin : id ∉ p.available_connections := fun hmem =>
    absurd (h2 id hmem).2 (by simp [hid])
  have hperm : (p.available_connections ++ [id]).Perm
      (id :: p.available_connections) :=
    List.perm_append_singleton id p.available_connections
  obtain ⟨f1, f2, f3, f4⟩ := release_connection_fields p id
  refine ⟨?_, ?_, ?_, ?_, ?_⟩
  · rw [f1]
    exact hperm.nodup_iff.mpr (List.nodup_cons.mpr ⟨hid_notin, h1⟩)
  · intro j hj
    rw [f1] at hj
    rw [f2, f4 j]
    rcases List.mem_append.mp hj with hm | hm
    · have hjne : j ≠ id := fun he => hid_notin (he ▸ hm)
      rw [if_neg hjne]
      exact h2 j hm
    · have hje : j = id := by simpa using hm
      rw [if_pos hje]
      exact ⟨hje ▸ h3 id hid, rfl⟩
  · intro j hj
    rw [f4 j] at hj
    rw [f2]
    by_cases hje : j = id
    · rw [if_pos hje] at hj
      cases hj
    · rw [if_neg hje] at hj
      exact h3 j hj
  · intro _ j hj1 hj2 hj3
    rw [f2] at hj2
    rw [f4 j] at hj3
    rw [f1]
    by_cases hje : j = id
    · exact List.mem_append.mpr (Or.inr (by simp [hje]))
    · rw [if_neg hje] at hj3
      exact List.mem_append.mpr (Or.inl (h4 hinit j hj1 hj2 hj3))
  · intro hc
    rw [f3, hinit] at hc
    cases hc

/-- Invariant preservation for a heartbeat-monitor tick. -/
theorem tick_inv (now : Nat) (f : Nat → Bool) (p : IBConnectionPool)
    (hp : PoolInv p) : PoolInv (heartbeat_monitor_tick now f p) := by
  obtain ⟨h1, h2, h3, h4, h5⟩ := hp
  refine ⟨h1, ?_, ?_, ?_, ?_⟩
  · intro j hj
    have := tick_in_use now f p j
    exact ⟨(h2 j hj).1, this.trans (h2 j hj).2⟩
  · intro j hj
    rw [tick_in_use] at hj
    exact h3 j hj
  · intro hi j hj1 hj2 hj3
    rw [tick_in_use] at hj3
    exact h4 hi j hj1 hj2 hj3
  · intro hc
    refine ⟨(h5 hc).1, fun j => ?_⟩
    rw [tick_in_use]
    exact (h5 hc).2 j

/-- Every reachable pool state satisfies the invariant. -/
theorem reachable_inv (T k n : Nat) (p : IBConnectionPool)
    (hr : PoolReachable T k n p) : PoolInv p := by
  induction hr with
  | init => exact initPool_inv n
  | step _ hs ih =>
    cases hs with
    | acquireOk now outcomes id h =>
      exact get_connection_inv T now k outcomes _ ih
    | acquireFail now outcomes id h =>
      exact get_connection_inv T now k outcomes _ ih
    | acquireTimeout now outcomes h =>
      exact get_connection_inv T now k outcomes _ ih
    | release id h => exact release_inv _ id ih h
    | tick now f h => exact tick_inv now f _ ih

/-- get_connection never changes the configured capacity. -/
theorem get_connection_max (T now k : Nat) (outcomes : Nat → ConnectOutcome)
    (p : IBConnectionPool) :
    (get_connection T now k outcomes p).2.max_connections =
      p.max_connections := by
  cases hav : (get_connection_init_phase p).available_connections with
  | nil =>
    rw [get_connection_nil T now k outcomes p hav]
    exact init_phase_max p
  | cons id rest =>
    by_cases hok : (ensure_connected T now k outcomes
        ((get_connection_init_phase p).connections id)).2 = true
    · rw [get_connection_cons_ok T now k outcomes p id rest hav hok]
      exact init_phase_max p
    · rw [get_connection_cons_fail T now k outcomes p id rest hav
        (by simpa using hok)]
      exact init_phase_max p

/-- Steps never change the configured capacity. -/
theorem reachable_capacity (T k n : Nat) (p : IBConnectionPool)
    (hr : PoolReachable T k n p) : p.max_connections = n := by
  induction hr with
  | init => rfl
  | step _ hs ih =>
    cases hs with
    | acquireOk now outcomes id h =>
      exact (get_connection_max T now k outcomes _).trans ih
    | acquireFail now outcomes id h =>
      exact (get_connection_max T now k outcomes _).trans ih
    | acquireTimeout now outcomes h =>
      exact (get_connection_max T now k outcomes _).trans ih
    | release id h => exact ih
    | tick now f h => exact ih

/-- In an initialized pool satisfying the invariant, the queue is exactly
    the set of in-range ids not in use. -/
theorem inv_queue_finset (p : IBConnectionPool) (hp : PoolInv p)
    (hinit : p.initialized = true) :
    p.available_connections.toFinset =
      (Finset.Icc 1 p.max_connections).filter
        (fun id => (p.connections id).in_use = false) := by
  obtain ⟨h1, h2, h3, h4, h5⟩ := hp
  ext j
  simp only [List.mem_toFinset, Finset.mem_filter, Finset.mem_Icc]
  constructor
  · intro hj
    exact ⟨(h2 j hj).1, (h2 j hj).2⟩
  · rintro ⟨⟨ha, hb⟩, hc⟩
    exact h4 hinit j ha hb hc

/-- Queue length plus leased count equals the configured capacity, for any
    initialized pool satisfying the invariant. -/
theorem inv_count (p : IBConnectionPool) (hp : PoolInv p)
    (hinit : p.initialized = true) :
    p.available_connections.length + leased_count p = p.max_connections := by
  have h1 := hp.1
  have hlen : p.available_connections.length =
      p.available_connections.toFinset.card :=
    (List.toFinset_card_of_nodup h1).symm
  rw [hlen, inv_queue_finset p hp hinit, leased_count]
  have hsplit := Finset.filter_card_add_filter_neg_card_eq_card
    (s := Finset.Icc 1 p.max_connections)
    (p := fun id => (p.connections id).in_use = true)
  rw [Nat.card_Icc] at hsplit
  have hcongr : (Finset.Icc 1 p.max_connections).filter
      (fun id => (p.connections id).in_use = false) =
      (Finset.Icc 1 p.max_connections).filter
        (fun id => ¬((p.connections id).in_use = true)) := by
    apply Finset.filter_congr
    intro id _
    cases h : (p.connections id).in_use <;> simp
  rw [hcongr]
  omega

/-- Claim C1: for every sequence of acquire (get_connection) and release
    operations on an initialized pool of capacity N, in every reachable
    state the number of sessions in the idle queue plus the number of
    currently leased sessions equals N, and no session reference appears
    twice in the idle queue. -/
theorem C1_capacity_invariant (T k n : Nat) (p : IBConnectionPool)
    (hr : PoolReachable T k n p) (hinit : p.initialized = true) :
    p.available_connections.length + leased_count p = n ∧
      p.available_connections.Nodup := by
  have hp := reachable_inv T k n p hr
  have hcap := reachable_capacity T k n p hr
  exact ⟨hcap ▸ inv_count p hp hinit, hp.1⟩

/-- Claim C2: a session handed out by get_connection is not handed out again
    before its release: in any reachable state, no acquire step can lease a
    session whose in_use flag is set. -/
theorem C2_lease_exclusive (T k n : Nat) (p p' : IBConnectionPool) (id : Nat)
    (hr : PoolReachable T k n p) (hid : (p.connections id).in_use = true) :
    ¬ PoolStep T k p (PoolLabel.acquired id) p' := by
  intro hs
  obtain ⟨h1, h2, h3, h4, h5⟩ := reachable_inv T k n p hr
  cases hs with
  | acquireOk now outcomes id hres =>
    have hqid : (get_connection_init_phase p).connections id = p.connections id := by
      rw [get_connection_init_phase]
      by_cases hi : p.initialized
      · rw [if_pos hi]
      · have hi' : p.initialized = false := by simpa using hi
        exact absurd ((h5 hi').2 id) (by simp [hid])
    cases hav : (get_connection_init_phase p).available_connections with
    | nil =>
      rw [get_connection_nil T now k outcomes p hav] at hres
      cases hres
    | cons id0 rest =>
      by_cases hok : (ensure_connected T now k outcomes
          ((get_connection_init_phase p).connections id0)).2 = true
      · rw [get_connection_cons_ok T now k outcomes p id0 rest hav hok] at hres
        have heq : id0 = id := by
          cases hres
          rfl
        subst heq
        have hmem0 : id0 ∈ (get_connection_init_phase p).available_connections := by
          rw [hav]; exact List.mem_cons_self id0 rest
        have hfree := ((init_phase_inv p ⟨h1, h2, h3, h4, h5⟩).2.1) id0 hmem0
        rw [hqid] at hfree
        rw [hfree.2] at hid
        cases hid
      · rw [get_connection_cons_fail T now k outcomes p id0 rest hav
          (by simpa using hok)] at hres
        cases hres

/-- Claim C3: in every reachable initialized state, the heartbeat monitor
    tick never probes a session whose in_use flag is set, and every session
    it does probe is in the idle queue. -/
theorem C3_monitor_skips_leased (T k n : Nat) (p : IBConnectionPool)
    (hr : PoolReachable T k n p) (hinit : p.initialized = true) :
    (∀ id, (p.connections id).in_use = true → id ∉ probedIds p) ∧
    (∀ id, id ∈ probedIds p →
      id ∈ p.available_connections ∧ (p.connections id).in_use = false) := by
  obtain ⟨h1, h2, h3, h4, h5⟩ := reachable_inv T k n p hr
  constructor
  · intro id hid hmem
    rw [probedIds, Finset.mem_filter] at hmem
    have hpb := hmem.2
    rw [probedBy] at hpb
    simp only [Bool.and_eq_true, Bool.not_eq_true', decide_eq_true_eq] at hpb
    rw [hpb.2] at hid
    cases hid
  · intro id hmem
    rw [probedIds, Finset.mem_filter, Finset.mem_Icc] at hmem
    have hpb := hmem.2
    rw [probedBy] at hpb
    simp only [Bool.and_eq_true, Bool.not_eq_true', decide_eq_true_eq] at hpb
    exact ⟨h4 hinit id hmem.1.1 hmem.1.2 hpb.2, hpb.2⟩

/-- connect reports failure for timeout and failure outcomes. -/
theorem connect_fail_outcome (c : IBConnection) (now : Nat)
    (o : ConnectOutcome)
    (h : o = ConnectOutcome.timeout ∨ o = ConnectOutcome.failure) :
    (connect c now o).2 = false := by
  rcases h with h | h <;> rw [h, connect]

/-- The retry loop makes at most remaining + 1 connect calls. -/
theorem connectRetryGo_calls (now : Nat) (outcomes : Nat → ConnectOutcome) :
    ∀ (r i : Nat) (c : IBConnection),
      (connectRetryGo now outcomes i r c).2.2 ≤ r + 1 := by
  intro r
  induction r with
  | zero =>
    intro i c
    rw [connectRetryGo]
    by_cases h : (connect c now (outcomes i)).2 <;> simp [h]
  | succ m ih =>
    intro i c
    rw [connectRetryGo]
    by_cases h : (connect c now (outcomes i)).2
    · simp [h]
    · simp only [h, Bool.false_eq_true, if_false]
      have := ih (i + 1) (connect c now (outcomes i)).1
      omega

/-- When every outcome is an error, the retry loop reports failure. -/
theorem connectRetryGo_fail (now : Nat) (outcomes : Nat → ConnectOutcome)
    (hf : ∀ i, outcomes i = ConnectOutcome.timeout ∨
      outcomes i = ConnectOutcome.failure) :
    ∀ (r i : Nat) (c : IBConnection),
      (connectRetryGo now outcomes i r c).2.1 = false := by
  intro r
  induction r with
  | zero =>
    intro i c
    rw [connectRetryGo]
    simp [connect_fail_outcome c now (outcomes i) (hf i)]
  | succ m ih =>
    intro i c
    rw [connectRetryGo]
    simp only [connect_fail_outcome c now (outcomes i) (hf i),
      Bool.false_eq_true, if_false]
    exact ih (i + 1) (connect c now (outcomes i)).1

/-- Claim C5: for every configured retry bound k of at least one attempt and
    every sequence of error outcomes from the underlying connect, the retry
    policy around IBConnection.connect makes at most k connect calls and
    then returns an error. -/
theorem C5_retry_bounded (now k : Nat) (outcomes : Nat → ConnectOutcome)
    (c : IBConnection) (hk : 1 ≤ k)
    (hf : ∀ i, outcomes i = ConnectOutcome.timeout ∨
      outcomes i = ConnectOutcome.failure) :
    (connectRetry now outcomes k c).2.2 ≤ k ∧
      (connectRetry now outcomes k c).2.1 = false := by
  constructor
  · have := connectRetryGo_calls now outcomes (k - 1) 0 c
    rw [connectRetry]
    omega
  · rw [connectRetry]
    exact connectRetryGo_fail now outcomes hf (k - 1) 0 c

theorem C5_retry_bounded_witness :
    (connectRetry 0 w_outcomes_fail 5 (freshConnection 1)).2.2 ≤ 5 ∧
      (connectRetry 0 w_outcomes_fail 5 (freshConnection 1)).2.1 = false :=
  C5_retry_bounded 0 5 w_outcomes_fail (freshConnection 1) (by decide)
    (fun _ => Or.inr rfl)

/-- Claim C4: an acquire that dequeues an unhealthy session and whose
    reconnection fails after retries are exhausted fails with the
    connect-failed error (not the queue-timeout error), tries no other
    session of the pool, and returns the failed session to the back of the
    idle queue, not in use. -/
theorem C4_acquire_connect_failed (T now k : Nat)
    (outcomes : Nat → ConnectOutcome) (p : IBConnectionPool) (id : Nat)
    (rest : List Nat) (hinit : p.initialized = true)
    (hav : p.available_connections = id :: rest)
    (hun : is_healthy T now (p.connections id) = false)
    (hf : ∀ i, outcomes i = ConnectOutcome.timeout ∨
      outcomes i = ConnectOutcome.failure) :
    (get_connection T now k outcomes p).1 = AcquireResult.connectFailed id ∧
    (get_connection T now k outcomes p).1 ≠ AcquireResult.timedOut ∧
    (get_connection T now k outcomes p).2.available_connections =
      rest ++ [id] ∧
    ((get_connection T now k outcomes p).2.connections id).in_use = false ∧
    (∀ j, j ≠ id → (get_connection T now k outcomes p).2.connections j =
      p.connections j) := by
  have hqp : get_connection_init_phase p = p := by
    rw [get_connection_init_phase, if_pos hinit]
  have hav' : (get_connection_init_phase p).available_connections =
      id :: rest := by rw [hqp, hav]
  have hfail : (ensure_connected T now k outcomes
      ((get_connection_init_phase p).connections id)).2 = false := by
    rw [hqp, ensure_connected, if_neg (by simp [hun])]
    exact connectRetryGo_fail now outcomes hf (k - 1) 0 (p.connections id)
  rw [get_connection_cons_fail T now k outcomes p id rest hav' hfail, hqp]
  obtain ⟨f1, f2, f3, f4⟩ := acquireFailPool_fields p id rest
    (ensure_connected T now k outcomes (p.connections id)).1
  refine ⟨rfl, by simp, ?_, ?_, ?_⟩
  · rw [← hqp]
    exact hqp ▸ f1
  · rw [f4 id, if_pos rfl]
  · intro j hj
    rw [f4 j, if_neg hj]

theorem C4_acquire_connect_failed_witness :
    (get_connection 1 0 1 w_outcomes_fail w_pool_seeded).1 =
      AcquireResult.connectFailed 1 ∧
    (get_connection 1 0 1 w_outcomes_fail w_pool_seeded).1 ≠
      AcquireResult.timedOut ∧
    (get_connection 1 0 1 w_outcomes_fail w_pool_seeded).2.available_connections
      = [2, 1] ∧
    ((get_connection 1 0 1 w_outcomes_fail w_pool_seeded).2.connections 1).in_use
      = false ∧
    (∀ j, j ≠ 1 →
      (get_connection 1 0 1 w_outcomes_fail w_pool_seeded).2.connections j =
        w_pool_seeded.connections j) :=
  C4_acquire_connect_failed 1 0 1 w_outcomes_fail w_pool_seeded 1 [2] rfl rfl
    rfl (fun _ => Or.inr rfl)

/-- Claim C6 counterexample: a connection-refused failure on the first
    candidate makes the loop abort at once — no backoff delay is slept and
    no further candidate is attempted — contradicting the claim that
    refused/timeout/unreachable failures incur backoff before the next
    attempt. -/
theorem C6_counterexample :
    (connectLoop cls_refused (candidateIds 1 [2, 3, 4, 5, 6])).2 =
      [(1, 0)] ∧
    (connectLoop cls_refused (candidateIds 1 [2, 3, 4, 5, 6])).1 = none ∧
    loopDelay cls_refused (candidateIds 1 [2, 3, 4, 5, 6]) = 0 :=
  ⟨rfl, rfl, rfl⟩

/-- Claim C6 (amended): an identifier-in-use failure moves to the next
    candidate immediately — the attempt sequence continues with the
    remaining candidates, the rejection adds zero backoff delay, and the
    loop's result is that of the remaining candidates.  (Refused, timeout
    and unreachable failures abort the loop at once with no backoff, and no
    rejection memory is recorded anywhere.) -/
theorem C6_in_use_no_backoff (classify : Nat → ConnOutcome) (id : Nat)
    (rest : List Nat) (h : classify id = ConnOutcome.idInUse) :
    loopAttempts classify (id :: rest) = id :: loopAttempts classify rest ∧
    loopDelay classify (id :: rest) = loopDelay classify rest ∧
    (connectLoop classify (id :: rest)).1 = (connectLoop classify rest).1 := by
  have hu : connectLoop classify (id :: rest) =
      ((connectLoop classify rest).1,
        (id, 0) :: (connectLoop classify rest).2) := by
    rw [connectLoop, h]
  refine ⟨?_, ?_, ?_⟩ <;> simp [loopAttempts, loopDelay, hu]

theorem C6_in_use_no_backoff_witness :
    loopAttempts cls_base_in_use (1 :: [2]) =
      1 :: loopAttempts cls_base_in_use [2] ∧
    loopDelay cls_base_in_use (1 :: [2]) = loopDelay cls_base_in_use [2] ∧
    (connectLoop cls_base_in_use (1 :: [2])).1 =
      (connectLoop cls_base_in_use [2]).1 :=
  C6_in_use_no_backoff cls_base_in_use 1 [2] rfl

/-- Claim C7 counterexample: one run observes identifier 1 rejected as
    in-use (it attempts 1, then moves to 2), yet a later candidate
    generation — the generation function keeps no rejection memory — still
    yields 1, and yields it first. -/
theorem C7_counterexample :
    loopAttempts cls_base_in_use (candidateIds 1 [2, 3, 4, 5, 6]) =
      [1, 2] ∧
    (candidateIds 1 [3, 2, 4, 5, 6]).head? = some 1 ∧
    1 ∈ candidateIds 1 [3, 2, 4, 5, 6] := by
  refine ⟨rfl, rfl, ?_⟩
  exact List.mem_cons_self 1 [3, 2, 4, 5, 6]

/-- Claim C7 (amended): the candidate generation keeps no memory of
    rejections — for every shuffle, the generated sequence consists of
    exactly the base id and base+1 .. base+5, so every previously rejected
    identifier is yielded again by every later generation. -/
theorem C7_candidates_no_memory (base : Nat) (sh : List Nat)
    (hp : sh.Perm (candidatePool base)) (x : Nat) :
    x ∈ candidateIds base sh ↔ x = base ∨ x ∈ candidatePool base := by
  rw [candidateIds, List.mem_cons, hp.mem_iff]

theorem C7_candidates_no_memory_witness :
    1 ∈ candidateIds 1 [3, 2, 4, 5, 6] ↔
      1 = 1 ∨ 1 ∈ candidatePool 1 :=
  C7_candidates_no_memory 1 [3, 2, 4, 5, 6] (by decide) 1

/-- Claim C8 counterexample: a connected session whose last_heartbeat is
    unset is reported unhealthy by is_healthy, not healthy as claimed. -/
theorem C8_counterexample : is_healthy 10 0 conn_no_heartbeat = false := rfl

/-- Claim C8 (amended): a connected session with no heartbeat timestamp is
    reported unhealthy by is_healthy; a just-connected session is
    nevertheless healthy because a successful connect records the connect
    time as the last heartbeat, whose age is zero. -/
theorem C8_healthy_after_connect (T now : Nat) (c : IBConnection)
    (hT : 0 < T) :
    is_healthy T now (connect c now ConnectOutcome.success).1 = true ∧
    (∀ c2 : IBConnection, c2.connected = true → c2.last_heartbeat = none →
      is_healthy T now c2 = false) := by
  constructor
  · rw [connect, is_healthy]
    simp only [Nat.sub_self, Bool.true_eq_false, if_false, decide_eq_true_eq]
    omega
  · intro c2 hc hhb
    rw [is_healthy, if_neg (by simp [hc]), hhb]

theorem C8_healthy_after_connect_witness :
    is_healthy 10 5 (connect (freshConnection 1) 5
      ConnectOutcome.success).1 = true :=
  (C8_healthy_after_connect 10 5 (freshConnection 1) (by decide)).1

/-- Claim C9 counterexample: when the underlying teardown raises, disconnect
    returns with the session state entirely unchanged — still connected,
    timestamps not cleared — contradicting the claim that the state is
    always reset on return. -/
theorem C9_counterexample :
    disconnect conn_live true true = conn_live ∧
    (disconnect conn_live true true).connected = true ∧
    (disconnect conn_live true true).last_heartbeat = some 5 :=
  ⟨rfl, rfl, rfl⟩

/-- Claim C9 (amended): disconnect never propagates an exception (it is a
    total function over the fallible teardown body); when the teardown
    succeeds or no live client exists the state is fully reset, but when the
    teardown raises the error is swallowed and the state is left unchanged. -/
theorem C9_disconnect_swallows_errors (c : IBConnection)
    (client_live teardown_raises : Bool) :
    disconnect c client_live teardown_raises =
      (if client_live && teardown_raises then c else clearConnection c) ∧
    (clearConnection c).connected = false ∧
    (clearConnection c).in_use = false ∧
    (clearConnection c).last_heartbeat = none ∧
    (clearConnection c).connection_time = none := by
  refine ⟨?_, rfl, rfl, rfl, rfl⟩
  cases client_live <;> cases teardown_raises <;> rfl

/-- Claim C10: an acquire on an uninitialized pool never fails for that
    reason — it first runs full initialization (all capacity sessions
    created fresh, the idle queue seeded with every one of them, the monitor
    task started, initialized set) and then proceeds to wait for an idle
    session; with at least one session the wait cannot time out at once. -/
theorem C10_lazy_init (T k n : Nat) (p : IBConnectionPool)
    (hr : PoolReachable T k n p) (h : p.initialized = false) :
    (get_connection_init_phase p).initialized = true ∧
    (get_connection_init_phase p).available_connections =
      List.range' 1 p.max_connections ∧
    (get_connection_init_phase p).heartbeat_task = true ∧
    (∀ i, 1 ≤ i → i ≤ p.max_connections →
      (get_connection_init_phase p).connections i = freshConnection i) ∧
    (∀ now outcomes, 1 ≤ p.max_connections →
      (get_connection T now k outcomes p).1 ≠ AcquireResult.timedOut) := by
  have hp := reachable_inv T k n p hr
  have hav0 : p.available_connections = [] := (hp.2.2.2.2 h).1
  have hnot : ¬ p.initialized = true := by simp [h]
  have hqe : get_connection_init_phase p = initializePool p := by
    rw [get_connection_init_phase, if_neg hnot]
  obtain ⟨hm, hq, hin, hhb, hconn⟩ := initializePool_fields p h
  have hqav : (get_connection_init_phase p).available_connections =
      List.range' 1 p.max_connections := by
    rw [hqe, hq, hav0, List.nil_append]
  refine ⟨init_phase_initialized p, hqav, ?_, ?_, ?_⟩
  · rw [hqe, hhb]
  · intro i hi1 hi2
    rw [hqe, hconn i, if_pos ⟨hi1, hi2⟩]
  · intro now outcomes hn
    obtain ⟨m, hm2⟩ : ∃ m, p.max_connections = m + 1 :=
      ⟨p.max_connections - 1, by omega⟩
    have havq : (get_connection_init_phase p).available_connections =
        1 :: List.range' 2 m := by
      rw [hqav, hm2, List.range'_succ]
    by_cases hok : (ensure_connected T now k outcomes
        ((get_connection_init_phase p).connections 1)).2 = true
    · rw [get_connection_cons_ok T now k outcomes p 1 (List.range' 2 m)
        havq hok]
      simp
    · rw [get_connection_cons_fail T now k outcomes p 1 (List.range' 2 m)
        havq (by simpa using hok)]
      simp

theorem C10_lazy_init_witness :
    (get_connection_init_phase (initPool 2)).initialized = true ∧
    (get_connection_init_phase (initPool 2)).available_connections =
      List.range' 1 2 ∧
    (get_connection_init_phase (initPool 2)).heartbeat_task = true ∧
    (get_connection 1 0 1 w_outcomes_fail (initPool 2)).1 ≠
      AcquireResult.timedOut := by
  have h := C10_lazy_init 1 1 2 (initPool 2) PoolReachable.init rfl
  exact ⟨h.1, h.2.1, h.2.2.1, h.2.2.2.2 0 w_outcomes_fail (by decide)⟩

theorem C1_capacity_invariant_witness :
    w_pool1.available_connections.length + leased_count w_pool1 = 2 ∧
      w_pool1.available_connections.Nodup :=
  C1_capacity_invariant 1 1 2 w_pool1
    (PoolReachable.step PoolReachable.init
      (PoolStep.acquireOk (initPool 2) 0 w_outcomes_ok 1 rfl)) rfl

theorem C2_lease_exclusive_witness :
    ¬ PoolStep 1 1 w_pool1 (PoolLabel.acquired 1) w_pool1 :=
  C2_lease_exclusive 1 1 2 w_pool1 w_pool1 1
    (PoolReachable.step PoolReachable.init
      (PoolStep.acquireOk (initPool 2) 0 w_outcomes_ok 1 rfl)) rfl

theorem C3_monitor_skips_leased_witness : (1 : Nat) ∉ probedIds w_pool1 :=
  (C3_monitor_skips_leased 1 1 2 w_pool1
    (PoolReachable.step PoolReachable.init
      (PoolStep.acquireOk (initPool 2) 0 w_outcomes_ok 1 rfl)) rfl).1 1 rfl

end TradingApp
